import Mathlib

/-!
# Reaction Time Duel — verification of the wire protocol and game core

Shallow embedding of the C++ sources of the ReactionTimeDuel repository:
the CRC8 packet codec (`ATtiny85_Joystick/Protocol.h`,
`ReactionTimerHost/include/DisplayProtocol.h`), the display's receive
callback (`Display/project1-game/src/main.cpp`), the host's ACK/retry
channel, join registry, round-winner selection and mode shuffle bag
(`ReactionTimerHost/src/main.cpp`), and the peripheral's reaction/shake
detectors (`ReactionTimerSlave/src/main.cpp`).

Machine integers are modelled as `Nat` (with explicit `% 2^w` where the C
code can overflow or truncate) and `Int` for the signed accelerometer
arithmetic.
-/

set_option maxRecDepth 40000

namespace RTD

/-! ## Protocol constants (Protocol.h / DisplayProtocol.h) -/

def PACKET_START : Nat := 0x0A
def ID_HOST : Nat := 0x00
def ID_DISPLAY : Nat := 0x05
def ID_BROADCAST : Nat := 0xFF
def ID_STICK1 : Nat := 0x01
def ID_STICK4 : Nat := 0x04
def CMD_REQ_ID : Nat := 0x0D
def CMD_OK : Nat := 0x0B
def CMD_REACTION_DONE : Nat := 0x26
def MODE_REACTION : Nat := 0x01
def MODE_SHAKE : Nat := 0x02

/-- Modelled from the spec: `TIME_PENALTY` is defined in the shared ESP-NOW
`Protocol.h`, which is not in the repository snapshot.  The spec's glossary
calls it the reserved "invalid/maximum" time value, and the in-repo comments
fix it to `0xFFFF` ("0xFFFF = timeout/penalty" in `DisplayProtocol.h`,
"Cap at 0xFFFE (0xFFFF is penalty)" in the slave's `shakeUpdate`). -/
def TIME_PENALTY : Nat := 0xFFFF

/-! ## CRC8 (identical bodies: `CRC8` in `ATtiny85_Joystick/Protocol.h`,
`calcCRC8` in `ReactionTimerHost/include/DisplayProtocol.h`)

```c
uint8_t calcCRC8(const uint8_t *data, uint8_t len) {
  uint8_t crc = 0x00;
  while (len--) {
    uint8_t extract = *data++;
    for (uint8_t i = 8; i; i--) {
      uint8_t sum = (crc ^ extract) & 0x01;
      crc >>= 1;
      if (sum) crc ^= 0x8C;
      extract >>= 1;
    }
  }
  return crc;
}
``` -/

/-- One iteration of the inner bit loop, acting on the crc accumulator
(`extract` is shifted separately by the caller). -/
def crc8Round (crc extract : Nat) : Nat :=
  let sum := (crc ^^^ extract) &&& 0x01
  let crc := crc >>> 1
  if sum = 1 then crc ^^^ 0x8C else crc

/-- The inner `for (i = 8; i; i--)` loop, with `n` iterations left. -/
def crc8Bits (crc extract : Nat) : Nat → Nat
  | 0 => crc
  | n + 1 => crc8Bits (crc8Round crc extract) (extract >>> 1) n

/-- Processing one input byte (8 iterations of the bit loop). -/
def crc8Byte (crc b : Nat) : Nat := crc8Bits crc b 8

/-- The outer `while (len--)` loop starting from accumulator `crc`. -/
def crc8From (crc : Nat) (data : List Nat) : Nat := data.foldl crc8Byte crc

/-- `calcCRC8` on a byte list (initial value 0x00). -/
def calcCRC8 (data : List Nat) : Nat := crc8From 0 data

/-! ### Linearity of the CRC over GF(2)

The bitwise update is XOR-linear jointly in the accumulator and the input
byte; this is what makes single-bit errors detectable. -/

theorem shiftRight_xor (a b n : Nat) : (a ^^^ b) >>> n = (a >>> n) ^^^ (b >>> n) := by
  apply Nat.eq_of_testBit_eq
  intro i
  simp [Nat.testBit_shiftRight, Nat.testBit_xor]

theorem and_one_xor (a b : Nat) : (a ^^^ b) &&& 1 = ((a &&& 1) ^^^ (b &&& 1)) := by
  rw [Nat.and_one_is_mod, Nat.and_one_is_mod, Nat.and_one_is_mod,
    Nat.xor_mod_two_eq, Nat.add_mod]
  rcases Nat.mod_two_eq_zero_or_one a with ha | ha <;>
    rcases Nat.mod_two_eq_zero_or_one b with hb | hb <;> rw [ha, hb] <;> decide

theorem xor_left_comm (a b c : Nat) : a ^^^ (b ^^^ c) = b ^^^ (a ^^^ c) := by
  rw [← Nat.xor_assoc, Nat.xor_comm a b, Nat.xor_assoc]

theorem xor_cancel_left (a b : Nat) : a ^^^ (a ^^^ b) = b := by
  rw [← Nat.xor_assoc, Nat.xor_self, Nat.zero_xor]

theorem and_one_cases (a : Nat) : a &&& 1 = 0 ∨ a &&& 1 = 1 := by
  rcases Nat.mod_two_eq_zero_or_one a with h | h <;>
    simp [Nat.and_one_is_mod, h]

theorem crc8Round_eq (crc extract : Nat) :
    crc8Round crc extract =
      (crc >>> 1) ^^^ (if (crc ^^^ extract) &&& 1 = 1 then 0x8C else 0) := by
  simp only [crc8Round]
  by_cases h : (crc ^^^ extract) &&& 1 = 1
  · rw [if_pos h, if_pos h]
  · rw [if_neg h, if_neg h, Nat.xor_zero]

theorem crc8Round_linear (c₁ e₁ c₂ e₂ : Nat) :
    crc8Round (c₁ ^^^ c₂) (e₁ ^^^ e₂) = crc8Round c₁ e₁ ^^^ crc8Round c₂ e₂ := by
  rw [crc8Round_eq, crc8Round_eq, crc8Round_eq, shiftRight_xor]
  have hre : (c₁ ^^^ c₂ ^^^ (e₁ ^^^ e₂)) &&& 1
      = ((c₁ ^^^ e₁) &&& 1) ^^^ ((c₂ ^^^ e₂) &&& 1) := by
    rw [show c₁ ^^^ c₂ ^^^ (e₁ ^^^ e₂) = (c₁ ^^^ e₁) ^^^ (c₂ ^^^ e₂) by
      rw [Nat.xor_assoc, Nat.xor_assoc]
      congr 1
      rw [← Nat.xor_assoc, ← Nat.xor_assoc, Nat.xor_comm c₂ e₁]]
    exact and_one_xor _ _
  rw [hre]
  rcases and_one_cases (c₁ ^^^ e₁) with h1 | h1 <;>
    rcases and_one_cases (c₂ ^^^ e₂) with h2 | h2 <;>
      simp only [h1, h2] <;>
        simp [Nat.xor_assoc, Nat.xor_comm, xor_left_comm, xor_cancel_left,
          Nat.xor_self, Nat.xor_zero, Nat.zero_xor]

theorem crc8Bits_linear (n : Nat) : ∀ c₁ e₁ c₂ e₂ : Nat,
    crc8Bits (c₁ ^^^ c₂) (e₁ ^^^ e₂) n = crc8Bits c₁ e₁ n ^^^ crc8Bits c₂ e₂ n := by
  induction n with
  | zero => intro c₁ e₁ c₂ e₂; rfl
  | succ n ih =>
    intro c₁ e₁ c₂ e₂
    show crc8Bits (crc8Round (c₁ ^^^ c₂) (e₁ ^^^ e₂)) ((e₁ ^^^ e₂) >>> 1) n = _
    rw [crc8Round_linear, shiftRight_xor]
    exact ih _ _ _ _

theorem crc8Byte_linear (c₁ e₁ c₂ e₂ : Nat) :
    crc8Byte (c₁ ^^^ c₂) (e₁ ^^^ e₂) = crc8Byte c₁ e₁ ^^^ crc8Byte c₂ e₂ :=
  crc8Bits_linear 8 c₁ e₁ c₂ e₂

/-- Splitting the accumulator: a CRC run from an XOR of two states is the
XOR of the run from the first state with the zero-input evolution of the
second. -/
theorem crc8From_xor_state : ∀ (l : List Nat) (x y : Nat),
    crc8From (x ^^^ y) l = crc8From x l ^^^ crc8From y (List.replicate l.length 0)
  | [], x, y => rfl
  | a :: l, x, y => by
    show crc8From (crc8Byte (x ^^^ y) a) l = _
    have ha : crc8Byte (x ^^^ y) a = crc8Byte x a ^^^ crc8Byte y 0 := by
      have := crc8Byte_linear x a y 0
      simpa using this
    rw [ha, crc8From_xor_state l]
    rfl

/-! ## Wire frames and the two validators

`receivePacket` (`DisplayProtocol.h`): after locating the start byte it
checks destination and compares `calcCRC8(bytes 1..5)` against byte 6.
`on_data_recv` (`Display/project1-game/src/main.cpp`): checks start byte,
destination, source, then compares `calcCRC8(data, 6)` — six bytes starting
at the start byte — against byte 6. -/

/-- A 7-byte wire frame `[START][DEST][SRC][CMD][DATA_HI][DATA_LO][CRC]`. -/
structure Frame where
  b0 : Nat
  b1 : Nat
  b2 : Nat
  b3 : Nat
  b4 : Nat
  b5 : Nat
  b6 : Nat
  deriving DecidableEq

/-- The five checksummed bytes `[DEST][SRC][CMD][DATA_HI][DATA_LO]`. -/
def crcBytes (f : Frame) : List Nat := [f.b1, f.b2, f.b3, f.b4, f.b5]

/-- Acceptance condition of `receivePacket` in `DisplayProtocol.h` for one
7-byte frame: start byte, destination (display or broadcast), and
`calcCRC8` over the 5 bytes after the start byte. -/
def receivePacketAccepts (f : Frame) : Bool :=
  (f.b0 == PACKET_START) &&
    ((f.b1 == ID_DISPLAY) || (f.b1 == ID_BROADCAST)) &&
    (calcCRC8 (crcBytes f) == f.b6)

/-- Modelled from the spec: the display firmware's `calcCRC8` lives in its
local `Protocol.h`, which is not in the repository snapshot; the spec
mandates bit-exact reproduction of the same CRC8 variant (seed 0x00,
right-shift, conditional XOR 0x8C) on every node, so it is the same
function as `calcCRC8` above.  The acceptance condition below is the check
sequence of `on_data_recv` in `Display/project1-game/src/main.cpp`
(length/MAC checks aside): start byte, destination, source `ID_HOST`, and
`calcCRC8(data, 6)` — six bytes starting at the start byte — against
byte 6. -/
def onDataRecvAccepts (f : Frame) : Bool :=
  (f.b0 == PACKET_START) &&
    ((f.b1 == ID_DISPLAY) || (f.b1 == ID_BROADCAST)) &&
    (f.b2 == ID_HOST) &&
    (calcCRC8 [f.b0, f.b1, f.b2, f.b3, f.b4, f.b5] == f.b6)

/-- Frame construction as in `sendPacket` (`DisplayProtocol.h`), with the
destination and source generalized (`sendPacket` fixes them to
`ID_HOST`/`ID_DISPLAY`): the CRC byte is `calcCRC8` of bytes 1–5. -/
def sendPacketFrame (dest src cmd dataHigh dataLow : Nat) : Frame :=
  ⟨PACKET_START, dest, src, cmd, dataHigh, dataLow,
    calcCRC8 [dest, src, cmd, dataHigh, dataLow]⟩

/-- Checksum-layer encoder: append the CRC8 to the checksummed bytes. -/
def encodeChk (x : List Nat) : List Nat := x ++ [calcCRC8 x]

/-- Checksum-layer decoder: recompute the CRC8 over all but the trailing
byte and compare; on a match return the payload bytes. -/
def decodeChk (y : List Nat) : Option (List Nat) :=
  if y ≠ [] ∧ calcCRC8 y.dropLast = y.getLastD 0 then some y.dropLast else none

/-- Flip bit `k` of a byte. -/
def flipBit (b k : Nat) : Nat := b ^^^ (1 <<< k)

/-- Flip bit `k` of byte `j` of a frame. -/
def flipFrame (f : Frame) (j k : Nat) : Frame :=
  match j with
  | 0 => { f with b0 := flipBit f.b0 k }
  | 1 => { f with b1 := flipBit f.b1 k }
  | 2 => { f with b2 := flipBit f.b2 k }
  | 3 => { f with b3 := flipBit f.b3 k }
  | 4 => { f with b4 := flipBit f.b4 k }
  | 5 => { f with b5 := flipBit f.b5 k }
  | _ => { f with b6 := flipBit f.b6 k }

/-! ### CRC facts feeding the single-bit-error theorem -/

theorem crc8From_append (c : Nat) (p q : List Nat) :
    crc8From c (p ++ q) = crc8From (crc8From c p) q :=
  List.foldl_append ..

/-- Effect of XOR-ing one byte of the input: the CRC changes by the
syndrome of that error byte run through the remaining positions. -/
theorem calcCRC8_flip (p : List Nat) (a m : Nat) (s : List Nat) :
    calcCRC8 (p ++ (a ^^^ m) :: s) =
      calcCRC8 (p ++ a :: s) ^^^
        crc8From (crc8Byte 0 m) (List.replicate s.length 0) := by
  unfold calcCRC8
  rw [crc8From_append, crc8From_append]
  set c := crc8From 0 p with hc
  show crc8From (crc8Byte c (a ^^^ m)) s = _
  have hb : crc8Byte c (a ^^^ m) = crc8Byte c a ^^^ crc8Byte 0 m := by
    have := crc8Byte_linear c a 0 m
    simpa using this
  rw [hb, crc8From_xor_state]
  rfl

/-- The 40 possible single-bit error syndromes (bit 0–7, then 0–4 trailing
zero bytes) are all nonzero. -/
theorem syndrome_ne_zero :
    ∀ k < 8, ∀ t < 5, crc8From (crc8Byte 0 (1 <<< k)) (List.replicate t 0) ≠ 0 := by
  decide

theorem xor_ne_self {a m : Nat} (hm : m ≠ 0) : a ^^^ m ≠ a := by
  intro h
  apply hm
  have h2 := congrArg (fun z => a ^^^ z) h.symm
  simpa [← Nat.xor_assoc, Nat.xor_self, Nat.zero_xor, eq_comm] using h2

theorem one_shiftLeft_ne_zero (k : Nat) : (1 <<< k) ≠ 0 := by
  rw [Nat.shiftLeft_eq, one_mul]
  exact Nat.pos_iff_ne_zero.mp (Nat.pos_pow_of_pos k (by norm_num))

theorem decodeChk_encodeChk (x : List Nat) : decodeChk (encodeChk x) = some x := by
  unfold decodeChk encodeChk
  rw [if_pos] <;> simp

/-- Any single-bit flip in a frame accepted by `receivePacket` makes it
rejected: bit flips in the start byte fail the start check, flips in the
five checksummed bytes change the CRC8 (all 40 error syndromes are
nonzero), and flips in the stored CRC byte break the comparison. -/
theorem receivePacket_rejects_flip (f : Frame)
    (hacc : receivePacketAccepts f = true) :
    ∀ j < 7, ∀ k < 8, receivePacketAccepts (flipFrame f j k) = false := by
  intro j hj k hk
  simp only [receivePacketAccepts, Bool.and_eq_true, Bool.or_eq_true,
    beq_iff_eq, and_assoc] at hacc
  obtain ⟨g0, g1, gcrc⟩ := hacc
  simp only [crcBytes] at gcrc
  rw [Bool.eq_false_iff]
  intro h
  simp only [receivePacketAccepts, Bool.and_eq_true, Bool.or_eq_true,
    beq_iff_eq, and_assoc] at h
  interval_cases j
  · -- start byte
    obtain ⟨h0, -, -⟩ := h
    simp only [flipFrame, flipBit] at h0
    rw [g0] at h0
    exact xor_ne_self (one_shiftLeft_ne_zero k) h0
  · -- DEST byte (position 0 of the checksummed range)
    obtain ⟨-, -, hcrc⟩ := h
    have hflip := calcCRC8_flip [] f.b1 (1 <<< k) [f.b2, f.b3, f.b4, f.b5]
    simp only [List.cons_append, List.nil_append, List.length_cons,
      List.length_nil] at hflip
    simp only [flipFrame, flipBit, crcBytes] at hcrc
    rw [hflip, gcrc] at hcrc
    exact xor_ne_self (syndrome_ne_zero k hk 4 (by norm_num)) hcrc
  · -- SRC byte
    obtain ⟨-, -, hcrc⟩ := h
    have hflip := calcCRC8_flip [f.b1] f.b2 (1 <<< k) [f.b3, f.b4, f.b5]
    simp only [List.cons_append, List.nil_append, List.length_cons,
      List.length_nil] at hflip
    simp only [flipFrame, flipBit, crcBytes] at hcrc
    rw [hflip, gcrc] at hcrc
    exact xor_ne_self (syndrome_ne_zero k hk 3 (by norm_num)) hcrc
  · -- CMD byte
    obtain ⟨-, -, hcrc⟩ := h
    have hflip := calcCRC8_flip [f.b1, f.b2] f.b3 (1 <<< k) [f.b4, f.b5]
    simp only [List.cons_append, List.nil_append, List.length_cons,
      List.length_nil] at hflip
    simp only [flipFrame, flipBit, crcBytes] at hcrc
    rw [hflip, gcrc] at hcrc
    exact xor_ne_self (syndrome_ne_zero k hk 2 (by norm_num)) hcrc
  · -- DATA_HIGH byte
    obtain ⟨-, -, hcrc⟩ := h
    have hflip := calcCRC8_flip [f.b1, f.b2, f.b3] f.b4 (1 <<< k) [f.b5]
    simp only [List.cons_append, List.nil_append, List.length_cons,
      List.length_nil] at hflip
    simp only [flipFrame, flipBit, crcBytes] at hcrc
    rw [hflip, gcrc] at hcrc
    exact xor_ne_self (syndrome_ne_zero k hk 1 (by norm_num)) hcrc
  · -- DATA_LOW byte
    obtain ⟨-, -, hcrc⟩ := h
    have hflip := calcCRC8_flip [f.b1, f.b2, f.b3, f.b4] f.b5 (1 <<< k) []
    simp only [List.cons_append, List.nil_append, List.length_cons,
      List.length_nil] at hflip
    simp only [flipFrame, flipBit, crcBytes] at hcrc
    rw [hflip, gcrc] at hcrc
    exact xor_ne_self (syndrome_ne_zero k hk 0 (by norm_num)) hcrc
  · -- stored CRC byte
    obtain ⟨-, -, hcrc⟩ := h
    simp only [flipFrame, flipBit, crcBytes] at hcrc
    rw [gcrc] at hcrc
    exact xor_ne_self (one_shiftLeft_ne_zero k) hcrc.symm

/-! ## Timeout constants (`GameTypes.h` of host and slave) -/

namespace HostTypes

def TIMEOUT_JOIN : Nat := 30000
def TIMEOUT_REACTION : Nat := 10000
def TIMEOUT_SHAKE : Nat := 30000

end HostTypes

namespace SlaveTypes

def TIMEOUT_REACTION : Nat := 5000
def TIMEOUT_SHAKE : Nat := 30000

end SlaveTypes

/-! ## Claim C1 / C2 / C3 theorems -/

/-- C1: the claim states that the codec's checksum validation
(`receivePacket`: CRC8 over the 5 bytes after the start byte) and the
display's receive callback (`on_data_recv`: `calcCRC8(data, 6)`, six bytes
starting at the start byte) accept exactly the same frames.  Evaluating
both validators on the frame the codec itself builds for
`DISP_IDLE`-style traffic (`sendPacketFrame ID_DISPLAY ID_HOST 0x30 0 0`,
whose CRC byte is CRC8 of bytes 1–5) shows they do not: the codec accepts
it, the display rejects it, because the display checksums a different byte
range. -/
theorem c1_checksum_byte_range_divergence :
    receivePacketAccepts (sendPacketFrame ID_DISPLAY ID_HOST 0x30 0x00 0x00) = true ∧
    onDataRecvAccepts (sendPacketFrame ID_DISPLAY ID_HOST 0x30 0x00 0x00) = false := by
  decide

/-- C2: the claim states the reaction timeout of the host's collect phase
equals the reaction timeout the peripheral uses to self-report a penalty,
and likewise for the shake timeout.  Evaluating the constants of the two
`GameTypes.h` files: the host uses 10000 ms, the slave uses 5000 ms (its
own comment says "must match Host"), so the reaction timeouts differ; the
shake timeouts agree at 30000 ms. -/
theorem c2_timeout_constants_divergence :
    HostTypes.TIMEOUT_REACTION = 10000 ∧
    SlaveTypes.TIMEOUT_REACTION = 5000 ∧
    HostTypes.TIMEOUT_REACTION ≠ SlaveTypes.TIMEOUT_REACTION ∧
    HostTypes.TIMEOUT_SHAKE = SlaveTypes.TIMEOUT_SHAKE := by
  decide

/-- C3: decoding a frame built from a byte sequence of length 1–5
reproduces it bit-for-bit, and flipping any single bit (byte `j < 7`,
bit `k < 8`) of a frame accepted by the codec's validation makes it
rejected: start-byte flips fail the start check, flips in the checksummed
bytes change the CRC8, and flips of the stored CRC byte break the
comparison. -/
theorem c3_crc8_roundtrip_and_single_bit_detection :
    (∀ x : List Nat, 1 ≤ x.length → x.length ≤ 5 →
      decodeChk (encodeChk x) = some x) ∧
    (∀ f : Frame, receivePacketAccepts f = true →
      ∀ j < 7, ∀ k < 8, receivePacketAccepts (flipFrame f j k) = false) :=
  ⟨fun x _ _ => decodeChk_encodeChk x, receivePacket_rejects_flip⟩

theorem c3_witness :
    decodeChk (encodeChk [0x05, 0x00, 0x30]) = some [0x05, 0x00, 0x30] ∧
    receivePacketAccepts
      (flipFrame (sendPacketFrame ID_DISPLAY ID_HOST 0x30 0x00 0x00) 3 0) = false :=
  ⟨c3_crc8_roundtrip_and_single_bit_detection.1 [0x05, 0x00, 0x30]
      (by decide) (by decide),
   c3_crc8_roundtrip_and_single_bit_detection.2
      (sendPacketFrame ID_DISPLAY ID_HOST 0x30 0x00 0x00) (by decide)
      3 (by decide) 0 (by decide)⟩

/-! ## Reliable command channel (host `main.cpp`)

```c
#define ACK_MAX_RETRIES    3
#define ACK_RETRY_INTERVAL 50
```
`sendWithRetry` stores a pending slot (`waiting = true`,
`retries = ACK_MAX_RETRIES`, `lastSend = millis()`) and transmits once.
`updateRetries` per waiting slot: if `now - lastSend < interval` skip;
if retries remain, decrement, stamp `lastSend = now` and retransmit;
otherwise clear `waiting` and log "GAVE UP" (non-fatal). -/

def ACK_MAX_RETRIES : Nat := 3
def ACK_RETRY_INTERVAL : Nat := 50

structure PendingAck where
  waiting : Bool
  dest : Nat
  cmd : Nat
  data : Nat
  retries : Nat
  lastSend : Nat
  deriving DecidableEq

/-- The pending slot stored by `sendWithRetry` (the send itself is the
initial transmission, at time `now`). -/
def sendWithRetry (dest cmd data now : Nat) : PendingAck :=
  ⟨true, dest, cmd, data, ACK_MAX_RETRIES, now⟩

/-- One `updateRetries` pass over one slot at time `now`; returns the new
slot, whether a retransmission happened, and whether the slot gave up. -/
def updateRetrySlot (pa : PendingAck) (now : Nat) : PendingAck × Bool × Bool :=
  if pa.waiting = false then (pa, false, false)
  else if now - pa.lastSend < ACK_RETRY_INTERVAL then (pa, false, false)
  else if 0 < pa.retries then
    ({ pa with retries := pa.retries - 1, lastSend := now }, true, false)
  else ({ pa with waiting := false }, false, true)

/-- `on_ack`: `handleAck` clears the slot only when it is waiting on
exactly the acknowledged command. -/
def handleAck (pa : PendingAck) (ackedCmd : Nat) : PendingAck :=
  if pa.waiting = true ∧ pa.cmd = ackedCmd then { pa with waiting := false }
  else pa

/-- Run `updateRetries` at each time in `ts`; returns the final slot, the
list of retransmission times, and the number of "gave up" events. -/
def runRetryTicks (pa : PendingAck) : List Nat → PendingAck × List Nat × Nat
  | [] => (pa, [], 0)
  | t :: ts =>
    let r := updateRetrySlot pa t
    let rest := runRetryTicks r.1 ts
    (rest.1, (if r.2.1 then t :: rest.2.1 else rest.2.1),
      (if r.2.2 then 1 else 0) + rest.2.2)

theorem runRetryTicks_not_waiting (ts : List Nat) :
    ∀ pa : PendingAck, pa.waiting = false → runRetryTicks pa ts = (pa, [], 0) := by
  induction ts with
  | nil => intro pa _; rfl
  | cons t ts ih =>
    intro pa hw
    have hstep : updateRetrySlot pa t = (pa, false, false) := by
      unfold updateRetrySlot
      rw [if_pos hw]
    show runRetryTicks pa (t :: ts) = (pa, [], 0)
    simp only [runRetryTicks, hstep]
    simp [ih pa hw]

theorem runRetryTicks_exhaust (ts : List Nat) : ∀ pa : PendingAck,
    pa.waiting = true →
    (runRetryTicks pa ts).1.waiting = false →
    (runRetryTicks pa ts).2.1.length = pa.retries ∧
    (runRetryTicks pa ts).2.2 = 1 ∧
    List.Chain' (fun a b => a + ACK_RETRY_INTERVAL ≤ b)
      (pa.lastSend :: (runRetryTicks pa ts).2.1) := by
  induction ts with
  | nil =>
    intro pa hw hdone
    rw [show runRetryTicks pa [] = (pa, [], 0) from rfl] at hdone
    rw [hw] at hdone
    exact absurd hdone (by simp)
  | cons t ts ih =>
    intro pa hw hdone
    by_cases hskip : t - pa.lastSend < ACK_RETRY_INTERVAL
    · have hstep : updateRetrySlot pa t = (pa, false, false) := by
        simp only [updateRetrySlot, hw]
        rw [if_neg (by simp), if_pos hskip]
      have hrun : runRetryTicks pa (t :: ts) = runRetryTicks pa ts := by
        simp only [runRetryTicks, hstep]
        simp
      rw [hrun] at hdone ⊢
      exact ih pa hw hdone
    · by_cases hr : 0 < pa.retries
      · have hstep : updateRetrySlot pa t =
            ({ pa with retries := pa.retries - 1, lastSend := t }, true, false) := by
          simp only [updateRetrySlot, hw]
          rw [if_neg (by simp), if_neg hskip, if_pos hr]
        have hrun : runRetryTicks pa (t :: ts) =
            ((runRetryTicks { pa with retries := pa.retries - 1, lastSend := t } ts).1,
              t :: (runRetryTicks { pa with retries := pa.retries - 1, lastSend := t } ts).2.1,
              (runRetryTicks { pa with retries := pa.retries - 1, lastSend := t } ts).2.2) := by
          simp only [runRetryTicks, hstep]
          simp
        rw [hrun] at hdone ⊢
        obtain ⟨hlen, hgave, hchain⟩ :=
          ih { pa with retries := pa.retries - 1, lastSend := t } hw hdone
        have hlen' :
            (runRetryTicks { pa with retries := pa.retries - 1, lastSend := t } ts).2.1.length
              = pa.retries - 1 := hlen
        have hchain' :
            List.Chain' (fun a b => a + ACK_RETRY_INTERVAL ≤ b)
              (t :: (runRetryTicks { pa with retries := pa.retries - 1, lastSend := t } ts).2.1) :=
          hchain
        refine ⟨?_, hgave, ?_⟩
        · simp only [List.length_cons, hlen']
          omega
        · refine List.Chain'.cons ?_ hchain'
          simp only [ACK_RETRY_INTERVAL] at hskip ⊢
          omega
      · have hstep : updateRetrySlot pa t =
            ({ pa with waiting := false }, false, true) := by
          simp only [updateRetrySlot, hw]
          rw [if_neg (by simp), if_neg hskip, if_neg hr]
        have hrest := runRetryTicks_not_waiting ts { pa with waiting := false } rfl
        have hrun : runRetryTicks pa (t :: ts) =
            ({ pa with waiting := false }, [], 1) := by
          simp only [runRetryTicks, hstep, hrest]
          simp
        rw [hrun]
        refine ⟨by simpa using (by omega : pa.retries = 0).symm, rfl, ?_⟩
        exact List.chain'_singleton _

/-- C4: with `ACK_MAX_RETRIES = 3` and no ACK ever processed, once the
retry ticks have run the slot to completion, the command was transmitted
exactly 4 times (the initial send at `t0` plus the 3 retransmissions),
consecutive transmissions are spaced by at least the 50 ms retry interval,
exactly one "gave up" event was emitted, and any further ticks leave the
cleared slot untouched (exhaustion is not escalated). -/
theorem c4_retry_exhaustion (dest cmd data t0 : Nat) (ts : List Nat)
    (hdone : (runRetryTicks (sendWithRetry dest cmd data t0) ts).1.waiting = false) :
    (t0 :: (runRetryTicks (sendWithRetry dest cmd data t0) ts).2.1).length = 4 ∧
    (runRetryTicks (sendWithRetry dest cmd data t0) ts).2.2 = 1 ∧
    List.Chain' (fun a b => a + ACK_RETRY_INTERVAL ≤ b)
      (t0 :: (runRetryTicks (sendWithRetry dest cmd data t0) ts).2.1) ∧
    ∀ more : List Nat,
      runRetryTicks (runRetryTicks (sendWithRetry dest cmd data t0) ts).1 more =
        ((runRetryTicks (sendWithRetry dest cmd data t0) ts).1, [], 0) := by
  obtain ⟨hlen, hgave, hchain⟩ :=
    runRetryTicks_exhaust ts (sendWithRetry dest cmd data t0) rfl hdone
  refine ⟨?_, hgave, hchain, ?_⟩
  · simp only [List.length_cons, hlen]
    rfl
  · intro more
    exact runRetryTicks_not_waiting more _ hdone

theorem c4_witness :
    (runRetryTicks (sendWithRetry 0x05 0x33 3 0) [50, 100, 150, 200]).1.waiting
        = false ∧
    (0 :: (runRetryTicks (sendWithRetry 0x05 0x33 3 0) [50, 100, 150, 200]).2.1).length
        = 4 ∧
    (runRetryTicks (sendWithRetry 0x05 0x33 3 0) [50, 100, 150, 200]).2.2 = 1 :=
  ⟨by decide,
   (c4_retry_exhaustion 0x05 0x33 3 0 [50, 100, 150, 200] (by decide)).1,
   (c4_retry_exhaustion 0x05 0x33 3 0 [50, 100, 150, 200] (by decide)).2.1⟩

/-! ## Round winner selection (host `main.cpp`)

```c
bool isActivePlayer(uint8_t i) {
  if (!players[i].joined || slotToStick[i] == 0xFF) return false;
  if (inDeuce) return (i == deucePlayer[0] || i == deucePlayer[1]);
  return true;
}
uint8_t findRoundWinner() {
  uint8_t winner = 0xFF;
  uint16_t best = 0xFFFF;
  for (int i = 0; i < MAX_PLAYERS; i++) {
    if (isActivePlayer(i) && players[i].finished && players[i].reactionTime < best) {
      best = players[i].reactionTime;
      winner = i;
    }
  }
  return winner;
}
``` -/

/-- Per-slot player record (host `GameTypes.h`). -/
structure PlayerR where
  joined : Bool
  finished : Bool
  reactionTime : Nat
  score : Nat
  deriving DecidableEq

/-- The host state findRoundWinner/isActivePlayer read. -/
structure GameView where
  players : Fin 4 → PlayerR
  slotToStick : Fin 4 → Nat
  inDeuce : Bool
  deuce0 : Nat
  deuce1 : Nat

def isActivePlayer (g : GameView) (i : Fin 4) : Bool :=
  if (g.players i).joined = false ∨ g.slotToStick i = 0xFF then false
  else if g.inDeuce then decide (i.val = g.deuce0) || decide (i.val = g.deuce1)
  else true

/-- Active and finished: the filter of `findRoundWinner`'s loop. -/
def eligible (g : GameView) (i : Fin 4) : Bool :=
  isActivePlayer g i && (g.players i).finished

def frwStep (g : GameView) (acc : Nat × Nat) (i : Fin 4) : Nat × Nat :=
  if eligible g i && decide ((g.players i).reactionTime < acc.2) then
    (i.val, (g.players i).reactionTime)
  else acc

def findRoundWinner (g : GameView) : Nat :=
  ((List.finRange 4).foldl (frwStep g) (0xFF, 0xFFFF)).1

theorem frw_fold (g : GameView) : ∀ (L : List (Fin 4)) (acc : Nat × Nat),
    (L.foldl (frwStep g) acc = acc ∨
      ∃ i ∈ L, eligible g i = true ∧
        L.foldl (frwStep g) acc = (i.val, (g.players i).reactionTime) ∧
        (g.players i).reactionTime < acc.2) ∧
    (L.foldl (frwStep g) acc).2 ≤ acc.2 ∧
    (∀ j ∈ L, eligible g j = true →
      (L.foldl (frwStep g) acc).2 ≤ (g.players j).reactionTime) := by
  intro L
  induction L with
  | nil => intro acc; exact ⟨Or.inl rfl, le_refl _, by simp⟩
  | cons i L ih =>
    intro acc
    rw [List.foldl_cons]
    by_cases htake : eligible g i = true ∧ (g.players i).reactionTime < acc.2
    · have hstep : frwStep g acc i = (i.val, (g.players i).reactionTime) := by
        simp [frwStep, htake.1, htake.2]
      rw [hstep]
      obtain ⟨ih1, ih2, ih3⟩ := ih (i.val, (g.players i).reactionTime)
      refine ⟨?_, ?_, ?_⟩
      · rcases ih1 with heq | ⟨j, hj, hej, heq, hlt⟩
        · exact Or.inr ⟨i, List.mem_cons_self .., htake.1, heq, htake.2⟩
        · exact Or.inr ⟨j, List.mem_cons_of_mem _ hj, hej, heq,
            lt_trans hlt htake.2⟩
      · exact le_of_lt (lt_of_le_of_lt ih2 htake.2)
      · intro j hj hej
        rcases List.mem_cons.mp hj with rfl | hj
        · exact ih2
        · exact ih3 j hj hej
    · have hstep : frwStep g acc i = acc := by
        by_cases he : eligible g i = true
        · have hnlt : ¬(g.players i).reactionTime < acc.2 := fun h => htake ⟨he, h⟩
          simp [frwStep, hnlt]
        · simp [frwStep, Bool.eq_false_iff.mpr he]
      rw [hstep]
      obtain ⟨ih1, ih2, ih3⟩ := ih acc
      refine ⟨?_, ih2, ?_⟩
      · rcases ih1 with heq | ⟨j, hj, hej, heq, hlt⟩
        · exact Or.inl heq
        · exact Or.inr ⟨j, List.mem_cons_of_mem _ hj, hej, heq, hlt⟩
      · intro j hj hej
        rcases List.mem_cons.mp hj with rfl | hj
        · have hnlt : ¬(g.players j).reactionTime < acc.2 := fun h => htake ⟨hej, h⟩
          exact le_trans ih2 (le_of_not_lt hnlt)
        · exact ih3 j hj hej

/-- The concrete state of the spec's test vector: all four slots joined and
finished, times [250, TIME_PENALTY, 180, TIME_PENALTY], no deuce. -/
def exampleResultsState : GameView where
  players := fun i =>
    ⟨true, true, [250, 0xFFFF, 180, 0xFFFF].getD i.val 0, 0⟩
  slotToStick := fun i => i.val + 1
  inDeuce := false
  deuce0 := 0xFF
  deuce1 := 0xFF

/-- C6: round winner selection.  On the spec's test vector
[250, TIME_PENALTY, 180, TIME_PENALTY] the winner is index 2 (slot 3); in
general the no-winner value 0xFF is returned exactly when no active
finished player has a time below the penalty sentinel; a non-0xFF winner
is an active finished player with a sub-penalty minimal time (so a player
whose time is TIME_PENALTY is never selected); and an active finished
player with the strictly lowest valid time is always the one returned. -/
theorem c6_round_winner_selection :
    findRoundWinner exampleResultsState = 2 ∧
    (∀ g : GameView, (findRoundWinner g = 0xFF ↔
      ∀ i : Fin 4, eligible g i = true →
        TIME_PENALTY ≤ (g.players i).reactionTime)) ∧
    (∀ g : GameView, findRoundWinner g ≠ 0xFF →
      ∃ i : Fin 4, i.val = findRoundWinner g ∧ eligible g i = true ∧
        (g.players i).reactionTime < TIME_PENALTY ∧
        ∀ j : Fin 4, eligible g j = true →
          (g.players i).reactionTime ≤ (g.players j).reactionTime) ∧
    (∀ g : GameView, ∀ i : Fin 4, eligible g i = true →
      (g.players i).reactionTime < TIME_PENALTY →
      (∀ j : Fin 4, j ≠ i → eligible g j = true →
        (g.players i).reactionTime < (g.players j).reactionTime) →
      findRoundWinner g = i.val) := by
  refine ⟨by decide, ?_⟩
  have key := fun g => frw_fold g (List.finRange 4) (0xFF, 0xFFFF)
  refine ⟨?_, ?_, ?_⟩
  · intro g
    obtain ⟨h1, -, h3⟩ := key g
    constructor
    · intro hw i hei
      rcases h1 with heq | ⟨j, -, hej, heq, hlt⟩
      · have := h3 i (List.mem_finRange i) hei
        rw [heq] at this
        exact this
      · have : findRoundWinner g = j.val := congrArg Prod.fst heq
        rw [hw] at this
        omega
    · intro hall
      rcases h1 with heq | ⟨j, -, hej, heq, hlt⟩
      · exact congrArg Prod.fst heq
      · have := hall j hej
        rw [TIME_PENALTY] at this
        omega
  · intro g hw
    obtain ⟨h1, -, h3⟩ := key g
    rcases h1 with heq | ⟨j, -, hej, heq, hlt⟩
    · exact absurd (congrArg Prod.fst heq) hw
    · refine ⟨j, (congrArg Prod.fst heq).symm, hej, hlt, ?_⟩
      intro k hek
      have := h3 k (List.mem_finRange k) hek
      rw [heq] at this
      exact this
  · intro g i hei hlt hmin
    obtain ⟨h1, -, h3⟩ := key g
    have hle := h3 i (List.mem_finRange i) hei
    rcases h1 with heq | ⟨j, -, hej, heq, hjlt⟩
    · rw [heq] at hle
      rw [TIME_PENALTY] at hlt
      omega
    · have hwv : findRoundWinner g = j.val := congrArg Prod.fst heq
      by_cases hji : j = i
      · rw [hwv, hji]
      · have h1' := hmin j hji hej
        rw [heq] at hle
        omega

theorem c6_witness :
    findRoundWinner exampleResultsState = 2 ∧
    findRoundWinner exampleResultsState = (2 : Fin 4).val :=
  ⟨c6_round_winner_selection.1,
   c6_round_winner_selection.2.2.2 exampleResultsState 2 (by decide) (by decide)
     (by decide)⟩

/-! ## Mode shuffle bag (host `main.cpp`)

```c
uint8_t modeBag[2] = {MODE_REACTION, MODE_SHAKE};
uint8_t modeBagIdx = 2;  // start at 2 to trigger reshuffle on first use
uint8_t getNextGameMode() {
  if (modeBagIdx >= 2) {
    modeBagIdx = 0;
    if (random(2) == 0) { swap(modeBag[0], modeBag[1]); }
  }
  return modeBag[modeBagIdx++];
}
```
The `random(2)` draw is modelled as an oracle `Bool` argument. -/

structure ModeBagState where
  bag0 : Nat
  bag1 : Nat
  modeBagIdx : Nat
  deriving DecidableEq

def getNextGameMode (st : ModeBagState) (swapCoin : Bool) : Nat × ModeBagState :=
  let st :=
    if 2 ≤ st.modeBagIdx then
      { bag0 := if swapCoin then st.bag1 else st.bag0,
        bag1 := if swapCoin then st.bag0 else st.bag1,
        modeBagIdx := 0 }
    else st
  (if st.modeBagIdx = 0 then st.bag0 else st.bag1,
    { st with modeBagIdx := st.modeBagIdx + 1 })

/-- The bag always holds both modes, in some order. -/
def modeBagPerm (st : ModeBagState) : Prop :=
  (st.bag0 = MODE_REACTION ∧ st.bag1 = MODE_SHAKE) ∨
    (st.bag0 = MODE_SHAKE ∧ st.bag1 = MODE_REACTION)

/-- The initial bag (and the state `resetPlayers` restores by setting
`modeBagIdx = 2`): both modes present, refill pending. -/
def freshModeBag : ModeBagState := ⟨MODE_REACTION, MODE_SHAKE, 2⟩

/-- C9: starting at a bag-refill boundary (`modeBagIdx ≥ 2`, bag holding
both modes — true of a fresh bag and re-established after every aligned
pair), two consecutive draws return REACTION and SHAKE exactly once each,
in either order, for every pair of reshuffle coin flips; and the state
after the pair is again a refill boundary, so every refill-aligned pair of
rounds sees both modes before either repeats. -/
theorem c9_mode_shuffle_bag (st : ModeBagState) (hperm : modeBagPerm st)
    (hidx : 2 ≤ st.modeBagIdx) (c1 c2 : Bool) :
    ((getNextGameMode st c1).1 = MODE_REACTION ∧
      (getNextGameMode (getNextGameMode st c1).2 c2).1 = MODE_SHAKE) ∨
    ((getNextGameMode st c1).1 = MODE_SHAKE ∧
      (getNextGameMode (getNextGameMode st c1).2 c2).1 = MODE_REACTION) := by
  obtain ⟨h0, h1⟩ | ⟨h0, h1⟩ := hperm <;> cases c1 <;>
    simp [getNextGameMode, h0, h1, hidx, MODE_REACTION, MODE_SHAKE]

/-- The state after a refill-aligned pair is again a refill boundary with
both modes in the bag. -/
theorem modeBag_pair_closure (st : ModeBagState) (hperm : modeBagPerm st)
    (hidx : 2 ≤ st.modeBagIdx) (c1 c2 : Bool) :
    modeBagPerm (getNextGameMode (getNextGameMode st c1).2 c2).2 ∧
    (getNextGameMode (getNextGameMode st c1).2 c2).2.modeBagIdx = 2 := by
  obtain ⟨h0, h1⟩ | ⟨h0, h1⟩ := hperm <;> cases c1 <;>
    simp [getNextGameMode, modeBagPerm, h0, h1, hidx]

theorem c9_witness :
    ((getNextGameMode freshModeBag true).1 = MODE_REACTION ∧
      (getNextGameMode (getNextGameMode freshModeBag true).2 false).1 = MODE_SHAKE) ∨
    ((getNextGameMode freshModeBag true).1 = MODE_SHAKE ∧
      (getNextGameMode (getNextGameMode freshModeBag true).2 false).1 = MODE_REACTION) :=
  c9_mode_shuffle_bag freshModeBag (Or.inl ⟨rfl, rfl⟩) (by decide) true false

/-! ## Join registry (host `main.cpp`, `OnDataRecv` handling `CMD_REQ_ID`)

```c
if (pkt.cmd == CMD_REQ_ID) {
  if (gameState == STATE_JOIN) {
    if (stickClaimed[stickIdx]) { return; }
    uint8_t slot = currentPromptSlot;
    if (slotToStick[slot] != 0xFF) { return; }
    slotToStick[slot] = src;
    stickClaimed[stickIdx] = 1;
    players[slot].joined = true;
    joinedCount++;
    ...
  }
  return;
}
```
(`stickIdx = src - ID_STICK1`; packets with `src` outside `ID_STICK1..4`
are discarded before this dispatch.) -/

/-- The registry fields `OnDataRecv`'s join handling reads and writes. -/
structure JoinState where
  slotToStick : Fin 4 → Nat
  stickClaimed : Fin 4 → Bool
  joined : Fin 4 → Bool
  joinedCount : Nat
  currentPromptSlot : Fin 4
  inJoinPhase : Bool
  deriving DecidableEq

/-- The registry as `resetPlayers` leaves it, with the join phase open. -/
def resetJoinState : JoinState where
  slotToStick := fun _ => 0xFF
  stickClaimed := fun _ => false
  joined := fun _ => false
  joinedCount := 0
  currentPromptSlot := 0
  inJoinPhase := true


/-- The joystick's claimed-flag index `stickIdx = src - ID_STICK1`. -/
def stickIdxOf (src : Nat) (h : ID_STICK1 ≤ src ∧ src ≤ ID_STICK4) : Fin 4 :=
  ⟨src - 1, by
    obtain ⟨h1, h4⟩ := h
    simp only [ID_STICK1, ID_STICK4] at h1 h4
    omega⟩

/-- Processing one `CMD_REQ_ID` packet from joystick id `src`. -/
def processReqId (st : JoinState) (src : Nat) : JoinState :=
  if h : ID_STICK1 ≤ src ∧ src ≤ ID_STICK4 then
    if st.inJoinPhase = false then st
    else if st.stickClaimed (stickIdxOf src h) = true then st
    else if st.slotToStick st.currentPromptSlot ≠ 0xFF then st
    else
      { st with
        slotToStick := Function.update st.slotToStick st.currentPromptSlot src,
        stickClaimed := Function.update st.stickClaimed (stickIdxOf src h) true,
        joined := Function.update st.joined st.currentPromptSlot true,
        joinedCount := st.joinedCount + 1 }
  else st

/-- The other mutations touching these fields during the join phase:
`startPromptSlot` moves the prompt, and the state machine toggles in/out of
`STATE_JOIN`.  Neither touches the map, the claimed flags, the joined
flags or the count. -/
inductive JoinStep : JoinState → JoinState → Prop
  | req (st : JoinState) (src : Nat) : JoinStep st (processReqId st src)
  | prompt (st : JoinState) (s : Fin 4) :
      JoinStep st { st with currentPromptSlot := s }
  | phase (st : JoinState) (b : Bool) :
      JoinStep st { st with inJoinPhase := b }

inductive JoinReachable : JoinState → Prop
  | init : JoinReachable resetJoinState
  | step {st st' : JoinState} :
      JoinReachable st → JoinStep st st' → JoinReachable st'


/-- Whether the stick with id `s` has its `stickClaimed` flag set (false
for ids outside `ID_STICK1..ID_STICK4`). -/
def claimedOf (cl : Fin 4 → Bool) (s : Nat) : Bool :=
  if h : ID_STICK1 ≤ s ∧ s ≤ ID_STICK4 then cl (stickIdxOf s h) else false

/-- Registry invariant: every claimed slot names a real stick whose
claimed flag is set, and no two slots name the same stick. -/
def JoinInv (st : JoinState) : Prop :=
  (∀ i : Fin 4, st.slotToStick i ≠ 0xFF →
    claimedOf st.stickClaimed (st.slotToStick i) = true) ∧
  (∀ i j : Fin 4, st.slotToStick i ≠ 0xFF →
    st.slotToStick i = st.slotToStick j → i = j)

theorem stickIdxOf_inj {s s' : Nat} (hs : ID_STICK1 ≤ s ∧ s ≤ ID_STICK4)
    (hs' : ID_STICK1 ≤ s' ∧ s' ≤ ID_STICK4)
    (h : stickIdxOf s hs = stickIdxOf s' hs') : s = s' := by
  have hval := congrArg Fin.val h
  simp only [stickIdxOf] at hval
  obtain ⟨h1, h2⟩ := hs
  obtain ⟨h3, h4⟩ := hs'
  simp only [ID_STICK1, ID_STICK4] at h1 h2 h3 h4
  omega

theorem claimedOf_update_self (cl : Fin 4 → Bool) (src : Nat)
    (hr : ID_STICK1 ≤ src ∧ src ≤ ID_STICK4) :
    claimedOf (Function.update cl (stickIdxOf src hr) true) src = true := by
  unfold claimedOf
  rw [dif_pos hr, Function.update_same]

theorem claimedOf_update_other (cl : Fin 4 → Bool) (src : Nat)
    (hr : ID_STICK1 ≤ src ∧ src ≤ ID_STICK4) (s : Nat) (hne : s ≠ src) :
    claimedOf (Function.update cl (stickIdxOf src hr) true) s = claimedOf cl s := by
  unfold claimedOf
  split
  case isTrue h =>
    rw [Function.update_noteq]
    intro heq
    exact hne (stickIdxOf_inj h hr heq)
  case isFalse => rfl

theorem joinInv_reset : JoinInv resetJoinState := by
  constructor
  · intro i hi
    exact absurd rfl hi
  · intro i j hi hij
    exact absurd rfl hi

theorem joinInv_processReqId (st : JoinState) (src : Nat) (hinv : JoinInv st) :
    JoinInv (processReqId st src) := by
  unfold processReqId
  split
  case isFalse => exact hinv
  case isTrue hr =>
    split
    case isTrue => exact hinv
    case isFalse hphase =>
      split
      case isTrue => exact hinv
      case isFalse hclaimed =>
        split
        case isTrue => exact hinv
        case isFalse hfree =>
          push_neg at hfree
          obtain ⟨hmap, hinj⟩ := hinv
          have hclaimed' : claimedOf st.stickClaimed src ≠ true := by
            unfold claimedOf
            rw [dif_pos hr]
            exact hclaimed
          have hsrc_new : ∀ i : Fin 4, st.slotToStick i ≠ 0xFF →
              st.slotToStick i ≠ src := by
            intro i hi heq
            apply hclaimed'
            rw [← heq]
            exact hmap i hi
          constructor
          · intro i hi
            have hi' : Function.update st.slotToStick st.currentPromptSlot src i
                ≠ 0xFF := hi
            show claimedOf (Function.update st.stickClaimed (stickIdxOf src hr) true)
              (Function.update st.slotToStick st.currentPromptSlot src i) = true
            by_cases hip : i = st.currentPromptSlot
            · subst hip
              rw [Function.update_same]
              exact claimedOf_update_self st.stickClaimed src hr
            · rw [Function.update_noteq hip]
              rw [Function.update_noteq hip] at hi'
              rw [claimedOf_update_other st.stickClaimed src hr _ (hsrc_new i hi')]
              exact hmap i hi'
          · intro i j hi hij
            have hi' : Function.update st.slotToStick st.currentPromptSlot src i
                ≠ 0xFF := hi
            have hij' : Function.update st.slotToStick st.currentPromptSlot src i
                = Function.update st.slotToStick st.currentPromptSlot src j := hij
            by_cases hip : i = st.currentPromptSlot <;>
              by_cases hjp : j = st.currentPromptSlot
            · rw [hip, hjp]
            · subst hip
              rw [Function.update_same, Function.update_noteq hjp] at hij'
              refine absurd hij'.symm (hsrc_new j ?_)
              rw [← hij']
              obtain ⟨hc, hd⟩ := hr
              simp only [ID_STICK1, ID_STICK4] at hc hd
              omega
            · subst hjp
              rw [Function.update_same, Function.update_noteq hip] at hij'
              rw [Function.update_noteq hip] at hi'
              exact absurd hij' (hsrc_new i hi')
            · rw [Function.update_noteq hip] at hi' hij'
              rw [Function.update_noteq hjp] at hij'
              exact hinj i j hi' hij'

theorem joinInv_reachable : ∀ st : JoinState, JoinReachable st → JoinInv st := by
  intro st h
  induction h with
  | init => exact joinInv_reset
  | step _ hstep ih =>
    cases hstep with
    | req src => exact joinInv_processReqId _ src ih
    | prompt s => exact ih
    | phase b => exact ih

/-- C5: slot-claim mutual exclusion.
1. A join request from a stick that already claimed a slot, or one
   arriving while the currently offered slot is owned, leaves the whole
   registry state (slot↔stick map, joined flags, joined count) unchanged.
2. In every reachable registry state the slot↔stick map is injective on
   claimed slots and every claimed slot names a stick whose claimed flag
   is set: each slot is claimed by at most one stick and each stick owns
   at most one slot.
3. A first claim from an unclaimed stick on a free offered slot succeeds
   (the slot maps to the stick and the joined count increments), and a
   second request from the same stick is then a no-op. -/
theorem c5_slot_claim_mutual_exclusion :
    (∀ (st : JoinState) (src : Nat) (h : ID_STICK1 ≤ src ∧ src ≤ ID_STICK4),
      (st.stickClaimed (stickIdxOf src h) = true ∨
        st.slotToStick st.currentPromptSlot ≠ 0xFF) →
      processReqId st src = st) ∧
    (∀ st : JoinState, JoinReachable st → JoinInv st) ∧
    (∀ (st : JoinState) (src : Nat) (h : ID_STICK1 ≤ src ∧ src ≤ ID_STICK4),
      st.inJoinPhase = true →
      st.stickClaimed (stickIdxOf src h) = false →
      st.slotToStick st.currentPromptSlot = 0xFF →
      (processReqId st src).slotToStick st.currentPromptSlot = src ∧
      (processReqId st src).joinedCount = st.joinedCount + 1 ∧
      processReqId (processReqId st src) src = processReqId st src) := by
  refine ⟨?_, joinInv_reachable, ?_⟩
  · intro st src h hrej
    unfold processReqId
    rw [dif_pos h]
    by_cases hphase : st.inJoinPhase = false
    · rw [if_pos hphase]
    · rw [if_neg hphase]
      rcases hrej with hcl | hslot
      · rw [if_pos hcl]
      · by_cases hcl2 : st.stickClaimed (stickIdxOf src h) = true
        · rw [if_pos hcl2]
        · rw [if_neg hcl2, if_pos hslot]
  · intro st src h hphase hfree hslot
    have hsucc : processReqId st src =
        { st with
          slotToStick := Function.update st.slotToStick st.currentPromptSlot src,
          stickClaimed := Function.update st.stickClaimed (stickIdxOf src h) true,
          joined := Function.update st.joined st.currentPromptSlot true,
          joinedCount := st.joinedCount + 1 } := by
      unfold processReqId
      rw [dif_pos h, if_neg (by simp [hphase]), if_neg (by simp [hfree]),
        if_neg (by simp [hslot])]
    refine ⟨?_, ?_, ?_⟩
    · rw [hsucc]
      show Function.update st.slotToStick st.currentPromptSlot src
        st.currentPromptSlot = src
      rw [Function.update_same]
    · rw [hsucc]
    · rw [hsucc]
      show processReqId _ src = _
      unfold processReqId
      rw [dif_pos h]
      rw [if_neg (by simp [hphase] : ¬(st.inJoinPhase = false)),
        if_pos (show Function.update st.stickClaimed (stickIdxOf src h) true
            (stickIdxOf src h) = true from Function.update_same ..)]

theorem c5_witness :
    JoinInv (processReqId resetJoinState 1) ∧
    (processReqId resetJoinState 1).slotToStick 0 = 1 ∧
    processReqId (processReqId resetJoinState 1) 1 =
      processReqId resetJoinState 1 :=
  ⟨c5_slot_claim_mutual_exclusion.2.1 (processReqId resetJoinState 1)
      (JoinReachable.step JoinReachable.init (JoinStep.req resetJoinState 1)),
   (c5_slot_claim_mutual_exclusion.2.2 resetJoinState 1 (by decide)
      rfl (by decide) (by decide)).1,
   (c5_slot_claim_mutual_exclusion.2.2 resetJoinState 1 (by decide)
      rfl (by decide) (by decide)).2.2⟩

/-! ## Shake detector (slave `main.cpp`, `shakeUpdate`)

```c
#define SHAKE_THRESHOLD_HIGH  6000
#define SHAKE_THRESHOLD_LOW   2000
...
shakeLpfAx += (((int32_t)ax << 8) - shakeLpfAx) >> 6;
shakeLpfAz += (((int32_t)az << 8) - shakeLpfAz) >> 6;
int32_t dynamicX = (int32_t)ax - (shakeLpfAx >> 8);
int32_t dynamicZ = (int32_t)az - (shakeLpfAz >> 8);
int32_t energy = abs(dynamicX) + abs(dynamicZ);
if (!shakePeaked) { if (energy > SHAKE_THRESHOLD_HIGH) shakePeaked = true; }
else { if (energy < SHAKE_THRESHOLD_LOW) { shakeCount++; shakePeaked = false; } }
if (shakeCount >= shakeTarget) {
  uint32_t elapsed = millis() - shakeStartTime_ms;
  if (elapsed > 0xFFFE) elapsed = 0xFFFE;   // 0xFFFF is penalty
  return (uint16_t)elapsed;
}
if (millis() - shakeStartTime_ms > TIMEOUT_SHAKE) return TIME_PENALTY;
return 0;
```
C's arithmetic right shift on a (possibly negative) `int32_t` is floor
division by the power of two, modelled with `Int.fdiv`. -/

def SHAKE_THRESHOLD_HIGH : Int := 6000
def SHAKE_THRESHOLD_LOW : Int := 2000

/-- The hysteresis block of `shakeUpdate`, acting on (`shakePeaked`,
`shakeCount`) for one energy sample. -/
def shakeHystStep (peaked : Bool) (count : Nat) (energy : Int) : Bool × Nat :=
  if peaked = false then
    if energy > SHAKE_THRESHOLD_HIGH then (true, count) else (false, count)
  else
    if energy < SHAKE_THRESHOLD_LOW then (false, count + 1) else (peaked, count)

/-- The hysteresis block over a sequence of energy samples. -/
def shakeHystRun (s : Bool × Nat) (es : List Int) : Bool × Nat :=
  es.foldl (fun s e => shakeHystStep s.1 s.2 e) s

/-- Interleaving of K (above-HIGH, below-LOW) sample pairs. -/
def altSeq : List (Int × Int) → List Int
  | [] => []
  | p :: ps => p.1 :: p.2 :: altSeq ps

theorem shakeHystRun_low (es : List Int) : ∀ c : Nat,
    (∀ e ∈ es, 0 ≤ e ∧ e ≤ SHAKE_THRESHOLD_HIGH - 1) →
    shakeHystRun (false, c) es = (false, c) := by
  induction es with
  | nil => intro c _; rfl
  | cons e es ih =>
    intro c hall
    obtain ⟨-, hhi⟩ := hall e (List.mem_cons_self ..)
    have hstep : shakeHystStep false c e = (false, c) := by
      have : ¬e > SHAKE_THRESHOLD_HIGH := by omega
      simp [shakeHystStep, this]
    show shakeHystRun (shakeHystStep false c e) es = (false, c)
    rw [hstep]
    exact ih c (fun e' he' => hall e' (List.mem_cons_of_mem _ he'))

theorem shakeHystRun_alt (ps : List (Int × Int)) : ∀ c : Nat,
    (∀ p ∈ ps, SHAKE_THRESHOLD_HIGH < p.1 ∧ p.2 < SHAKE_THRESHOLD_LOW) →
    shakeHystRun (false, c) (altSeq ps) = (false, c + ps.length) := by
  induction ps with
  | nil => intro c _; rfl
  | cons p ps ih =>
    intro c hall
    obtain ⟨hhi, hlo⟩ := hall p (List.mem_cons_self ..)
    have h1 : shakeHystStep false c p.1 = (true, c) := by
      simp [shakeHystStep, hhi]
    have h2 : shakeHystStep true c p.2 = (false, c + 1) := by
      simp [shakeHystStep, hlo]
    show shakeHystRun (shakeHystStep false c p.1) (p.2 :: altSeq ps) = _
    rw [h1]
    show shakeHystRun (shakeHystStep true c p.2) (altSeq ps) = _
    rw [h2, ih (c + 1) (fun q hq => hall q (List.mem_cons_of_mem _ hq))]
    refine congrArg (Prod.mk false) ?_
    simp only [List.length_cons]
    omega

/-- C7: shake hysteresis counting.  A sequence of energy samples that
never exceeds HIGH−1 leaves the (disarmed) detector's count unchanged,
and a sequence alternating above HIGH and below LOW exactly K times
increments the count by exactly K (arming above HIGH, counting on the
drop below LOW). -/
theorem c7_shake_hysteresis :
    (∀ (es : List Int) (c : Nat),
      (∀ e ∈ es, 0 ≤ e ∧ e ≤ SHAKE_THRESHOLD_HIGH - 1) →
      shakeHystRun (false, c) es = (false, c)) ∧
    (∀ (ps : List (Int × Int)) (c : Nat),
      (∀ p ∈ ps, SHAKE_THRESHOLD_HIGH < p.1 ∧ p.2 < SHAKE_THRESHOLD_LOW) →
      shakeHystRun (false, c) (altSeq ps) = (false, c + ps.length)) :=
  ⟨shakeHystRun_low, shakeHystRun_alt⟩

theorem c7_witness :
    shakeHystRun (false, 0) [0, 5999, 0, 3000, 5999] = (false, 0) ∧
    shakeHystRun (false, 0) (altSeq [(6001, 0), (7000, 1999)]) = (false, 2) :=
  ⟨c7_shake_hysteresis.1 [0, 5999, 0, 3000, 5999] 0 (by decide),
   c7_shake_hysteresis.2 [(6001, 0), (7000, 1999)] 0 (by decide)⟩

/-- Full shake-detector state (slave globals). -/
structure ShakeState where
  shakeCount : Nat
  shakePeaked : Bool
  shakeLpfAx : Int
  shakeLpfAz : Int
  shakeLpfReady : Bool
  shakeStartTime : Nat
  deriving DecidableEq

/-- `shakeReset()`. -/
def shakeReset (now : Nat) : ShakeState := ⟨0, false, 0, 0, false, now⟩

/-- One `shakeUpdate()` call on an accelerometer sample `(ax, az)` at time
`now` (ms): returns the new state and the result code (0 = still counting,
`TIME_PENALTY` = timeout, otherwise the capped completion time). -/
def shakeUpdate (st : ShakeState) (shakeTarget : Nat) (ax az : Int)
    (now : Nat) : ShakeState × Nat :=
  if st.shakeLpfReady = false then
    ({ st with
        shakeLpfAx := ax * 256
        shakeLpfAz := az * 256
        shakeLpfReady := true }, 0)
  else
    let lpfAx := st.shakeLpfAx + Int.fdiv (ax * 256 - st.shakeLpfAx) 64
    let lpfAz := st.shakeLpfAz + Int.fdiv (az * 256 - st.shakeLpfAz) 64
    let dynamicX := ax - Int.fdiv lpfAx 256
    let dynamicZ := az - Int.fdiv lpfAz 256
    let energy := |dynamicX| + |dynamicZ|
    let hyst := shakeHystStep st.shakePeaked st.shakeCount energy
    let st' := { st with
        shakeLpfAx := lpfAx
        shakeLpfAz := lpfAz
        shakePeaked := hyst.1
        shakeCount := hyst.2 }
    if shakeTarget ≤ hyst.2 then
      let elapsed := now - st'.shakeStartTime
      (st', if elapsed > 0xFFFE then 0xFFFE else elapsed)
    else if now - st'.shakeStartTime > SlaveTypes.TIMEOUT_SHAKE then
      (st', TIME_PENALTY)
    else (st', 0)

theorem shakeUpdate_result_capped (st : ShakeState) (shakeTarget : Nat)
    (ax az : Int) (now : Nat) :
    (shakeUpdate st shakeTarget ax az now).2 = TIME_PENALTY ∨
      (shakeUpdate st shakeTarget ax az now).2 ≤ 0xFFFE := by
  unfold shakeUpdate
  split
  · right
    omega
  · dsimp only
    split
    · split
      · right
        omega
      · right
        omega
    · split
      · left
        rfl
      · right
        omega

/-! ## Reaction timing (slave `main.cpp`)

```c
void IRAM_ATTR onButton() {
  if (g_go_received && jsState == JS_REACTION_TIMING) {
    g_button_time_us = micros();
    g_button_pressed = true;
  }
}
...
case CMD_GO:
  if (jsState == JS_WAITING_GO) { handleGO(); }   // sets go time + flag
...
case JS_WAITING_GO:
  if (g_go_received) {
    if (currentMode == MODE_REACTION) {
      if (digitalRead(PIN_BUTTON) == LOW) {            // early press held
        sendToHost(CMD_REACTION_DONE, TIME_PENALTY);
        jsState = JS_DONE;
      } else { jsState = JS_REACTION_TIMING; }
    } ...
  }
case JS_REACTION_TIMING:
  if (g_button_pressed) {
    uint32_t elapsed_us = g_button_time_us - g_go_time_us;
    uint16_t elapsed_ms = (uint16_t)(elapsed_us / 1000);
    if (elapsed_ms == 0) elapsed_ms = 1;
    sendToHost(CMD_REACTION_DONE, elapsed_ms);
    jsState = JS_DONE;
  }
  if (millis() > (g_go_time_us / 1000) + TIMEOUT_REACTION) {
    sendToHost(CMD_REACTION_DONE, TIME_PENALTY);
    jsState = JS_DONE;
  }
```
Timestamps are `micros()` values, i.e. `uint32_t`; the subtraction and the
`uint16_t` cast truncate, modelled with explicit `% 2^32` / `% 2^16`. -/

/-- `uint32_t` subtraction `a - b` for reduced operands. -/
def u32sub (a b : Nat) : Nat := (a + 2 ^ 32 - b % 2 ^ 32) % 2 ^ 32

/-- The value sent on a recorded button press:
`(uint16_t)((button - go) / 1000)`, with a computed 0 forced to 1. -/
def reactionElapsedMs (goUs buttonUs : Nat) : Nat :=
  let ms := (u32sub buttonUs goUs / 1000) % 2 ^ 16
  if ms = 0 then 1 else ms

/-- The joystick states of the slave's state machine. -/
inductive JS where
  | idle
  | waitingGo
  | reactionTiming
  | shakeCounting
  | done
  deriving DecidableEq

/-- Slave state visible to the reaction-mode round: the shared
flag/timestamp cells, the machine state, and the packets sent so far. -/
structure JsState where
  jsState : JS
  goReceived : Bool
  goTimeUs : Nat
  buttonPressed : Bool
  buttonTimeUs : Nat
  sent : List (Nat × Nat)
  deriving DecidableEq

/-- Events of a reaction round: the `CMD_GO` packet handler, the button
falling-edge interrupt, and one `runJoystick()` loop iteration (at millis
`tMs`, observing the raw button level `buttonLow`). -/
inductive JsEvent where
  | goPacket (tUs : Nat)
  | buttonIsr (tUs : Nat)
  | loopIter (tMs : Nat) (buttonLow : Bool)
  deriving DecidableEq

def jsStep (s : JsState) (ev : JsEvent) : JsState :=
  match ev with
  | .goPacket t =>
    if s.jsState = JS.waitingGo then
      { s with goReceived := true, goTimeUs := t % 2 ^ 32 }
    else s
  | .buttonIsr t =>
    if s.goReceived = true ∧ s.jsState = JS.reactionTiming then
      { s with buttonPressed := true, buttonTimeUs := t % 2 ^ 32 }
    else s
  | .loopIter tMs buttonLow =>
    match s.jsState with
    | JS.waitingGo =>
      if s.goReceived = true then
        if buttonLow then
          { s with
            jsState := JS.done
            sent := s.sent ++ [(CMD_REACTION_DONE, TIME_PENALTY)] }
        else { s with jsState := JS.reactionTiming }
      else s
    | JS.reactionTiming =>
      if s.buttonPressed = true then
        { s with
          jsState := JS.done
          sent := s.sent ++
            [(CMD_REACTION_DONE, reactionElapsedMs s.goTimeUs s.buttonTimeUs)] }
      else if s.goTimeUs / 1000 + SlaveTypes.TIMEOUT_REACTION < tMs then
        { s with
          jsState := JS.done
          sent := s.sent ++ [(CMD_REACTION_DONE, TIME_PENALTY)] }
      else s
    | _ => s

def jsRun (s : JsState) (evs : List JsEvent) : JsState := evs.foldl jsStep s

/-- State right after `CMD_GAME_START` with `mode = MODE_REACTION`. -/
def jsInitReaction : JsState := ⟨JS.waitingGo, false, 0, false, 0, []⟩

/-- C8 counterexample trace: the button is pressed (interrupt at 100 µs,
level low at the next loop) and released again entirely before the go
signal arrives at 5000 µs; the machine then times a later, ordinary press
and reports 200 ms — not `TIME_PENALTY`.  An early press is penalized only
if it is still held when the loop observes go. -/
theorem c8_counterexample :
    (jsRun jsInitReaction
      [JsEvent.buttonIsr 100, JsEvent.loopIter 1 true, JsEvent.loopIter 2 false,
        JsEvent.goPacket 5000, JsEvent.loopIter 6 false,
        JsEvent.buttonIsr 205000, JsEvent.loopIter 300 false]).sent
      = [(CMD_REACTION_DONE, 200)] ∧ (200 : Nat) ≠ TIME_PENALTY :=
  ⟨rfl, by decide⟩

theorem jsRun_done (evs : List JsEvent) : ∀ s : JsState,
    s.jsState = JS.done → jsRun s evs = s := by
  induction evs with
  | nil => intro s _; rfl
  | cons ev evs ih =>
    intro s hdone
    have hstep : jsStep s ev = s := by
      cases ev with
      | goPacket t => simp [jsStep, hdone]
      | buttonIsr t => simp [jsStep, hdone]
      | loopIter tMs buttonLow => simp [jsStep, hdone]
    show jsRun (jsStep s ev) evs = s
    rw [hstep]
    exact ih s hdone

theorem reactionElapsedMs_pos (a b : Nat) : 1 ≤ reactionElapsedMs a b := by
  unfold reactionElapsedMs
  dsimp only
  split
  · exact le_refl 1
  · omega

/-- Each step only appends to the sent list, and anything appended is at
least 1 ms. -/
theorem jsStep_sent_mono (s : JsState) (ev : JsEvent) :
    ∃ tail, (jsStep s ev).sent = s.sent ++ tail ∧ ∀ p ∈ tail, 1 ≤ p.2 := by
  cases ev with
  | goPacket t =>
    simp only [jsStep]
    split <;> exact ⟨[], by simp⟩
  | buttonIsr t =>
    simp only [jsStep]
    split <;> exact ⟨[], by simp⟩
  | loopIter tMs buttonLow =>
    simp only [jsStep]
    split
    · split
      · split
        · refine ⟨[(CMD_REACTION_DONE, TIME_PENALTY)], rfl, ?_⟩
          intro p hp
          rcases List.mem_singleton.mp hp with rfl
          decide
        · exact ⟨[], by simp⟩
      · exact ⟨[], by simp⟩
    · split
      · refine ⟨[(CMD_REACTION_DONE, reactionElapsedMs s.goTimeUs s.buttonTimeUs)],
          rfl, ?_⟩
        intro p hp
        rcases List.mem_singleton.mp hp with rfl
        exact reactionElapsedMs_pos _ _
      · split
        · refine ⟨[(CMD_REACTION_DONE, TIME_PENALTY)], rfl, ?_⟩
          intro p hp
          rcases List.mem_singleton.mp hp with rfl
          decide
        · exact ⟨[], by simp⟩
    · exact ⟨[], by simp⟩

/-- Every value the reaction round ever sends is at least 1 ms (never a
zero or meaningless duration). -/
theorem jsRun_sent_pos (evs : List JsEvent) : ∀ s : JsState,
    (∀ p ∈ s.sent, 1 ≤ p.2) →
    ∀ p ∈ (jsRun s evs).sent, 1 ≤ p.2 := by
  induction evs with
  | nil => intro s hs; exact hs
  | cons ev evs ih =>
    intro s hs
    refine ih (jsStep s ev) ?_
    obtain ⟨tail, heq, htail⟩ := jsStep_sent_mono s ev
    rw [heq]
    intro p hp
    rcases List.mem_append.mp hp with hold | hnew
    · exact hs p hold
    · exact htail p hnew

theorem jsRun_append (s : JsState) (evs evs' : List JsEvent) :
    jsRun s (evs ++ evs') = jsRun (jsRun s evs) evs' :=
  List.foldl_append ..

/-- C8 (amended): in reaction mode an early press is penalized exactly
when it is still held at the instant the main loop observes "go": if the
machine is awaiting go with the go flag set and the next loop iteration
reads the button as pressed, the round ends immediately with a single
`TIME_PENALTY` result packet and nothing further is ever sent; moreover no
result packet the peripheral ever sends carries a zero or otherwise
meaningless duration (every value is at least 1 ms).  (A press released
again before the loop observes go is not reported at all — see the C8
counterexample trace.) -/
theorem c8_early_press_policy :
    (∀ (pre post : List JsEvent) (t : Nat),
      (jsRun jsInitReaction pre).jsState = JS.waitingGo →
      (jsRun jsInitReaction pre).goReceived = true →
      (jsRun jsInitReaction (pre ++ JsEvent.loopIter t true :: post)).sent
        = (jsRun jsInitReaction pre).sent ++ [(CMD_REACTION_DONE, TIME_PENALTY)]) ∧
    (∀ (evs : List JsEvent), ∀ p ∈ (jsRun jsInitReaction evs).sent, 1 ≤ p.2) := by
  constructor
  · intro pre post t hst hgo
    rw [show pre ++ JsEvent.loopIter t true :: post
        = (pre ++ [JsEvent.loopIter t true]) ++ post by simp, jsRun_append,
      jsRun_append]
    have hstep : jsRun (jsRun jsInitReaction pre) [JsEvent.loopIter t true]
        = { jsRun jsInitReaction pre with
            jsState := JS.done
            sent := (jsRun jsInitReaction pre).sent
              ++ [(CMD_REACTION_DONE, TIME_PENALTY)] } := by
      show jsStep (jsRun jsInitReaction pre) (JsEvent.loopIter t true) = _
      simp [jsStep, hst, hgo]
    rw [hstep, jsRun_done post _ rfl]
  · intro evs
    exact jsRun_sent_pos evs jsInitReaction (by simp [jsInitReaction])

theorem c8_witness :
    (jsRun jsInitReaction
        ([JsEvent.goPacket 0] ++ JsEvent.loopIter 1 true :: [])).sent
      = (jsRun jsInitReaction [JsEvent.goPacket 0]).sent
        ++ [(CMD_REACTION_DONE, TIME_PENALTY)] ∧
    ∀ p ∈ (jsRun jsInitReaction
      [JsEvent.goPacket 0, JsEvent.loopIter 1 true]).sent, 1 ≤ p.2 :=
  ⟨c8_early_press_policy.1 [JsEvent.goPacket 0] [] 1 rfl rfl,
   c8_early_press_policy.2 [JsEvent.goPacket 0, JsEvent.loopIter 1 true]⟩

/-- C10 counterexample: a genuine press recorded 65 535 000 µs after go
takes the success path (`g_button_pressed` branch), yet
`(uint16_t)(elapsed_us / 1000)` truncates to 0xFFFF = `TIME_PENALTY`, so
the value sent collides with the penalty sentinel.  (The claim's cap
argument holds for the shake path but the reaction path only forces a
computed 0 to 1, it does not cap at 0xFFFE.) -/
theorem c10_counterexample :
    reactionElapsedMs 0 65535000 = TIME_PENALTY ∧
    (jsRun jsInitReaction [JsEvent.goPacket 0, JsEvent.loopIter 1 false,
      JsEvent.buttonIsr 65535000, JsEvent.loopIter 2 false]).sent
      = [(CMD_REACTION_DONE, TIME_PENALTY)] :=
  ⟨by decide, rfl⟩

/-- C10 (amended): a successful shake result is always capped at 0xFFFE
(every non-timeout `shakeUpdate` result is ≤ 0xFFFE, so it never equals
the penalty sentinel), and a reaction result is forced to at least 1 ms
(a computed 0 is reported as 1); the reaction value is distinct from
0xFFFF whenever the truncated `(elapsed_us / 1000) mod 2^16` is not
exactly 0xFFFF — in particular for every press observed within 65 535 ms
of go — but an elapsed time of exactly 65 535 ms aliases to the sentinel
(see the counterexample). -/
theorem c10_result_encoding :
    (∀ (st : ShakeState) (target : Nat) (ax az : Int) (now : Nat),
      (shakeUpdate st target ax az now).2 = TIME_PENALTY ∨
        (shakeUpdate st target ax az now).2 ≤ 0xFFFE) ∧
    (∀ goUs buttonUs : Nat, 1 ≤ reactionElapsedMs goUs buttonUs) ∧
    (∀ goUs buttonUs : Nat, u32sub buttonUs goUs / 1000 % 2 ^ 16 = 0 →
      reactionElapsedMs goUs buttonUs = 1) ∧
    (∀ goUs buttonUs : Nat, u32sub buttonUs goUs / 1000 % 2 ^ 16 ≠ 0xFFFF →
      reactionElapsedMs goUs buttonUs ≠ TIME_PENALTY) := by
  refine ⟨shakeUpdate_result_capped, reactionElapsedMs_pos, ?_, ?_⟩
  · intro goUs buttonUs h
    unfold reactionElapsedMs
    dsimp only
    rw [if_pos h]
  · intro goUs buttonUs h
    unfold reactionElapsedMs
    dsimp only
    split
    · decide
    · simpa [TIME_PENALTY] using h

theorem c10_witness :
    ((shakeUpdate (shakeReset 0) 10 0 0 5).2 = TIME_PENALTY ∨
      (shakeUpdate (shakeReset 0) 10 0 0 5).2 ≤ 0xFFFE) ∧
    1 ≤ reactionElapsedMs 0 200500 ∧
    reactionElapsedMs 0 200500 ≠ TIME_PENALTY :=
  ⟨c10_result_encoding.1 (shakeReset 0) 10 0 0 5,
   c10_result_encoding.2.1 0 200500,
   c10_result_encoding.2.2.2 0 200500 (by decide)⟩

end RTD
